import Mathlib

/-!
Verification development for the TFT7735V triple-buffered display pipeline
(src/src/TFT7735V.cpp, src/src/TFT7789V.h).

The embedding models, faithfully to the C++ source:
  * the dirty-rectangle accumulator (`expand_dirty_rect`, `calculate_dirty_chunks`);
  * the present coordinator state machine (`Machine`, `display`, `swapBuffers`,
    `taskStep` for one iteration of the transfer worker `display_task`);
  * byte/transaction accounting of the chunked transfer engine
    (`send_blocks_count`, `send_rows_count`, `full_chunk_count`,
    `dirty_chunk_count`), parameterised by an oracle `ok : Nat → Bool` giving
    the success of each pixel-data SPI transaction (command/argument writes
    never alter control flow in the source: their errors are only logged);
  * the pixel-level effect of a chunk send on the bounce buffers
    (`send_chunk_buf`, `send_dirty_rows_buf`, `copy_chunk_and_send_mem`,
    `copy_dirty_chunk_and_send_mem`), with buffers as functions `Nat → Nat`
    holding 16-bit values.
-/

namespace TFT7735V


/-! ### Constants (TFT7789V.h) -/

/-- ST7735_WIDTH (TFT7789V.h:37). -/

def ST7735_WIDTH : Nat := 128

/-- ST7735_HEIGHT (TFT7789V.h:38). -/

def ST7735_HEIGHT : Nat := 160

/-- SRAM_BUFFER_SIZE (TFT7789V.h:41). -/

def SRAM_BUFFER_SIZE : Nat := 8192

/-- CHUNK_HEIGHT = SRAM_BUFFER_SIZE / (ST7735_WIDTH * 2) (TFT7789V.h:42). -/

def CHUNK_HEIGHT : Nat := SRAM_BUFFER_SIZE / (ST7735_WIDTH * 2)

/-- MAX_CHUNKS = ceil(H / CHUNK_HEIGHT) (TFT7789V.h:43). -/

def MAX_CHUNKS : Nat := (ST7735_HEIGHT + CHUNK_HEIGHT - 1) / CHUNK_HEIGHT

/-- Depth of the display queue, xQueueCreate(10, ...) (TFT7735V.cpp:1528). -/

def QUEUE_CAPACITY : Nat := 10

/-- Pixels per SPI transaction in send_chunk_to_display (TFT7735V.cpp:1766). -/

def SPI_CHUNK_PIXELS : Nat := 2048

/-! ### Data model -/

/-- buffer_state_t (TFT7789V.h:46-50). -/

inductive BufferState
  | rendering
  | transferring
  | idle
deriving DecidableEq, Repr

/-- dirty_rect_t (TFT7789V.h:53-56). -/

structure DirtyRect where
  x : Nat
  y : Nat
  w : Nat
  h : Nat
  valid : Bool
deriving DecidableEq, Repr

/-- display_message_t (TFT7789V.h:59-65). -/

structure DisplayMessage where
  chunk_idx : Nat
  is_last_chunk : Bool
  source_buffer_idx : Fin 3
  use_dirty_rect : Bool
  dirty_rect : DirtyRect
deriving DecidableEq, Repr

/-- The dirty rect produced by clearDirty (TFT7735V.cpp:1858-1864). -/

def clearedDirtyRect : DirtyRect := ⟨0, 0, 0, 0, false⟩

/-! ### Dirty accumulator -/

/-- TFT7735V::expand_dirty_rect (TFT7735V.cpp:1877-1910).  `W`, `H` are the
runtime width/height fields (128 x 160 at rotation 0); `enabled` is
dirty_rect_enabled.  Inputs are clipped to the screen, zero-area inputs are
ignored; an invalid rect adopts the clipped input, a valid rect is expanded
to the bounding union. -/

def expand_dirty_rect (W H : Nat) (enabled : Bool) (r : DirtyRect)
    (x y w h : Nat) : DirtyRect :=
  if ¬ enabled then r
  else if x ≥ W ∨ y ≥ H then r
  else
    let w := if x + w > W then W - x else w
    let h := if y + h > H then H - y else h
    if w = 0 ∨ h = 0 then r
    else if ¬ r.valid then ⟨x, y, w, h, true⟩
    else
      let x1 := min r.x x
      let y1 := min r.y y
      let x2 := max (r.x + r.w) (x + w)
      let y2 := max (r.y + r.h) (y + h)
      ⟨x1, y1, x2 - x1, y2 - y1, true⟩

/-- TFT7735V::calculate_dirty_chunks (TFT7735V.cpp:1912-1934); the member
total_chunks is always MAX_CHUNKS.  Returns (affected_chunks, start_chunk,
end_chunk). -/

def calculate_dirty_chunks (r : DirtyRect) : Nat × Nat × Nat :=
  if ¬ r.valid then (MAX_CHUNKS, 0, MAX_CHUNKS - 1)
  else
    let s0 := r.y / CHUNK_HEIGHT
    let e0 := (r.y + r.h - 1) / CHUNK_HEIGHT
    let s := if s0 ≥ MAX_CHUNKS then MAX_CHUNKS - 1 else s0
    let e := if e0 ≥ MAX_CHUNKS then MAX_CHUNKS - 1 else e0
    (e - s + 1, s, e)

/-! ### Transfer-engine byte accounting -/

/-- Bytes sent by write_command: one 8-bit transfer (TFT7735V.cpp:218-230). -/

def write_command_bytes : Nat := 1

/-- Bytes sent by write_data: one 8-bit transfer (TFT7735V.cpp:232-244). -/

def write_data_bytes : Nat := 1

/-- Control bytes of set_addr_window (TFT7735V.cpp:376-398):
CASET + 4 argument bytes, RASET + 4 argument bytes, RAMWR. -/

def set_addr_window_bytes : Nat :=
  (write_command_bytes + 4 * write_data_bytes) +
  (write_command_bytes + 4 * write_data_bytes) + write_command_bytes

/-- Row range of chunk k: rows [k * CHUNK_HEIGHT, chunk_end k), the upper end
clamped to the screen height (TFT7735V.cpp:1723-1727). -/

def chunk_end (k : Nat) : Nat := min ((k + 1) * CHUNK_HEIGHT) ST7735_HEIGHT

/-- actual_chunk_height of chunk k (TFT7735V.cpp:1729). -/

def chunk_height_at (k : Nat) : Nat := chunk_end k - k * CHUNK_HEIGHT

/-- Byte/transaction accounting of the SPI block loop of send_chunk_to_display
(TFT7735V.cpp:1768-1792): `rem` pixels are sent in blocks of SPI_CHUNK_PIXELS;
transaction `t` succeeds iff `ok t`.  `fuel` bounds the iteration count
(callers pass `rem`, which suffices since every block moves at least one
pixel).  Returns (pixel bytes of successful transactions, transactions
attempted, success). -/

def send_blocks_count (ok : Nat → Bool) : Nat → Nat → Nat → Nat × Nat × Bool
  | 0, _, _ => (0, 0, true)
  | fuel + 1, t, rem =>
    if rem = 0 then (0, 0, true)
    else
      let cur := min SPI_CHUNK_PIXELS rem
      if ok t then
        let rec' := send_blocks_count ok fuel (t + 1) (rem - cur)
        (2 * cur + rec'.1, rec'.2.1 + 1, rec'.2.2)
      else (0, 1, false)

/-- Byte/transaction accounting of the per-row loop of
send_dirty_chunk_to_display (TFT7735V.cpp:2032-2059): one transaction of `w`
pixels per dirty row; a failed transaction aborts the remaining rows of the
chunk. -/

def send_rows_count (ok : Nat → Bool) (w : Nat) : Nat → Nat → Nat × Nat × Bool
  | _, 0 => (0, 0, true)
  | t, rows + 1 =>
    if ok t then
      let rec' := send_rows_count ok w (t + 1) rows
      (2 * w + rec'.1, rec'.2.1 + 1, rec'.2.2)
    else (0, 1, false)

/-- Byte/transaction accounting of copy_chunk_and_send followed by
send_chunk_to_display for chunk k (TFT7735V.cpp:1701-1793): one address
window, then the full-width chunk. Returns (pixel bytes, control bytes,
transactions). -/

def full_chunk_count (ok : Nat → Bool) (t k : Nat) : Nat × Nat × Nat :=
  let total := ST7735_WIDTH * chunk_height_at k
  let snd := send_blocks_count ok total t total
  (snd.1, set_addr_window_bytes, snd.2.1)

/-- Number of dirty rows intersecting chunk k
(TFT7735V.cpp:1967-1976 and 2007-2015), as a truncated difference: zero
exactly when the code's `dirty_start_y >= dirty_end_y` skip fires. -/

def dirty_rows_in_chunk (r : DirtyRect) (k : Nat) : Nat :=
  min (r.y + r.h) (chunk_end k) - max r.y (k * CHUNK_HEIGHT)

/-- Byte/transaction accounting of copy_dirty_chunk_and_send followed by
send_dirty_chunk_to_display for chunk k (TFT7735V.cpp:1936-1996, 1998-2059):
nothing is sent when the chunk does not intersect the dirty rect, otherwise
one address window plus one transaction of `r.w` pixels per dirty row. -/

def dirty_chunk_count (ok : Nat → Bool) (t k : Nat) (r : DirtyRect) :
    Nat × Nat × Nat :=
  let rows := dirty_rows_in_chunk r k
  if rows = 0 then (0, 0, 0)
  else
    let snd := send_rows_count ok r.w t rows
    (snd.1, set_addr_window_bytes, snd.2.1)

/-! ### The present coordinator machine -/

/-- The coordinator / transfer state of a TFT7735V object after begin(),
restricted to the fields the pipeline operates on, plus accounting ghosts:
`txn` counts pixel-data SPI transactions, `pixel_bytes` / `ctrl_bytes`
accumulate bytes put on the wire. -/

structure Machine where
  buffer_states : Fin 3 → BufferState
  render_buffer_idx : Fin 3
  transfer_buffer_idx : Fin 3
  dirty_rect : DirtyRect
  dirty_rect_enabled : Bool
  force_full_redraw : Bool
  display_in_progress : Bool
  display_done_flag : Bool
  done_semaphore : Bool
  queue : List DisplayMessage
  fb_enabled : Bool
  inited : Bool
  txn : Nat
  pixel_bytes : Nat
  ctrl_bytes : Nat

/-- The find-first-IDLE loop of display()/swapBuffers
(TFT7735V.cpp:1134-1139, 1816-1821): ascending index order. -/

def find_idle_buffer (st : Fin 3 → BufferState) : Option (Fin 3) :=
  if st 0 = .idle then some 0
  else if st 1 = .idle then some 1
  else if st 2 = .idle then some 2
  else none

/-- Which early-return branch (log message) of display() was taken. -/

inductive DisplayResult
  | ok
  | fbDisabled
  | notInited
  | inProgress
  | busy
  | queueFull
deriving DecidableEq, Repr

/-- TFT7735V::display (TFT7735V.cpp:1111-1205).  Swaps the render buffer to
TRANSFERRING, promotes the first IDLE buffer to RENDERING, snapshots the dirty
rect into the first chunk message and enqueues it; on queue overflow the
transfer buffer is reverted to IDLE.  The nullptr guards of the source
(current_framebuffer, display_queue) are folded into fb_enabled: both are
non-null exactly when the framebuffer system is up. -/

def display (m : Machine) : DisplayResult × Machine :=
  if ¬ m.fb_enabled then (.fbDisabled, m)
  else if ¬ m.inited then (.notInited, m)
  else if m.display_in_progress then (.inProgress, m)
  else
    match find_idle_buffer m.buffer_states with
    | none => (.busy, m)
    | some next =>
      let st1 := Function.update m.buffer_states m.render_buffer_idx .transferring
      let st2 := Function.update st1 next .rendering
      let use_dirty := m.dirty_rect_enabled && m.dirty_rect.valid && !m.force_full_redraw
      let plan :=
        if use_dirty then calculate_dirty_chunks m.dirty_rect
        else (MAX_CHUNKS, 0, MAX_CHUNKS - 1)
      let msg : DisplayMessage :=
        { chunk_idx := plan.2.1
          is_last_chunk := plan.1 = 1
          source_buffer_idx := m.render_buffer_idx
          use_dirty_rect := use_dirty
          dirty_rect := if use_dirty then m.dirty_rect else ⟨0, 0, 0, 0, false⟩ }
      if m.queue.length < QUEUE_CAPACITY then
        (.ok,
          { m with
              buffer_states := st2
              transfer_buffer_idx := m.render_buffer_idx
              render_buffer_idx := next
              display_in_progress := true
              display_done_flag := false
              done_semaphore := false
              queue := m.queue ++ [msg] })
      else
        (.queueFull,
          { m with
              buffer_states := Function.update st2 m.render_buffer_idx .idle
              transfer_buffer_idx := m.render_buffer_idx
              render_buffer_idx := next
              display_in_progress := false
              display_done_flag := true
              done_semaphore := true })

/-- TFT7735V::swapBuffers (TFT7735V.cpp:1808-1844): manual rotation without a
transfer; the old render buffer becomes IDLE. -/

def swapBuffers (m : Machine) : Machine :=
  if ¬ m.fb_enabled then m
  else
    match find_idle_buffer m.buffer_states with
    | none => m
    | some next =>
      let old := m.render_buffer_idx
      let st1 := Function.update m.buffer_states next .rendering
      let st2 := Function.update st1 old .idle
      { m with buffer_states := st2, render_buffer_idx := next }

/-- TFT7735V::waitForDisplayDone (TFT7735V.cpp:1800-1806): blocks on the
semaphore, then gives it straight back; no modeled state change. -/

def waitForDisplayDone (m : Machine) : Machine := m

/-- TFT7735V::clearDirty (TFT7735V.cpp:1858-1865): resets the dirty rect to
all-zero invalid and ALSO clears force_full_redraw. -/

def clearDirty (m : Machine) : Machine :=
  { m with dirty_rect := clearedDirtyRect, force_full_redraw := false }

/-- TFT7735V::forceFullRedraw (TFT7735V.cpp:1867-1871): sets the flag and
invalidates the dirty rect, keeping its coordinates. -/

def forceFullRedraw (m : Machine) : Machine :=
  { m with force_full_redraw := true,
           dirty_rect := { m.dirty_rect with valid := false } }

/-- A rasterizer write marking region (x, y, w, h): the expand_dirty_rect
call every fb_ drawing primitive makes (e.g. TFT7735V.cpp:1216, 1245). -/

def markDirty (m : Machine) (x y w h : Nat) : Machine :=
  let r := expand_dirty_rect ST7735_WIDTH ST7735_HEIGHT m.dirty_rect_enabled
    m.dirty_rect x y w h
  { m with dirty_rect := r }

/-- TFT7735V::enableDirtyRect (TFT7735V.cpp:1847-1856). -/

def enableDirtyRect (m : Machine) (b : Bool) : Machine :=
  let m1 := { m with dirty_rect_enabled := b }
  if b then clearDirty m1 else m1

/-- The completion block of display_task (TFT7735V.cpp:1641-1652 and
1687-1694): source buffer to IDLE, clearDirty, completion flags, semaphore. -/

def finish_job (m : Machine) (src : Fin 3) : Machine :=
  { m with
      buffer_states := Function.update m.buffer_states src .idle
      dirty_rect := clearedDirtyRect
      force_full_redraw := false
      display_in_progress := false
      display_done_flag := true
      done_semaphore := true }

/-- The queue-overflow abort of display_task (TFT7735V.cpp:1679-1686): like
finish_job but the dirty rect is NOT cleared. -/

def abort_job (m : Machine) (src : Fin 3) : Machine :=
  { m with
      buffer_states := Function.update m.buffer_states src .idle
      display_in_progress := false
      display_done_flag := true
      done_semaphore := true }

/-- One iteration of the display_task loop (TFT7735V.cpp:1623-1699):
receive the head of the queue, process the chunk (dirty or full mode),
then either finish the job or self-enqueue the next chunk.  Identity when
the queue is empty (the task blocks on xQueueReceive).  `ok` is the SPI
pixel-transaction success oracle; note the source ignores the result of
copy_*_and_send, so control flow does not depend on `ok`. -/

def taskStep (ok : Nat → Bool) (m : Machine) : Machine :=
  match m.queue with
  | [] => m
  | msg :: rest =>
    let dirtyMode := msg.use_dirty_rect && msg.dirty_rect.valid
    let cnt :=
      if ¬ m.inited then (0, 0, 0)
      else if dirtyMode then dirty_chunk_count ok m.txn msg.chunk_idx msg.dirty_rect
      else full_chunk_count ok m.txn msg.chunk_idx
    let m1 := { m with
                  queue := rest
                  txn := m.txn + cnt.2.2
                  pixel_bytes := m.pixel_bytes + cnt.1
                  ctrl_bytes := m.ctrl_bytes + cnt.2.1 }
    if msg.is_last_chunk then finish_job m1 msg.source_buffer_idx
    else
      let next_idx := msg.chunk_idx + 1
      let is_last :=
        if dirtyMode then next_idx > (calculate_dirty_chunks msg.dirty_rect).2.2
        else next_idx ≥ MAX_CHUNKS
      if is_last then finish_job m1 msg.source_buffer_idx
      else
        let next_msg := { msg with chunk_idx := next_idx, is_last_chunk := false }
        if m1.queue.length < QUEUE_CAPACITY then
          { m1 with queue := m1.queue ++ [next_msg] }
        else abort_job m1 msg.source_buffer_idx

/-- Iterated transfer-worker steps. -/

def runSteps (ok : Nat → Bool) : Nat → Machine → Machine
  | 0, m => m
  | n + 1, m => runSteps ok n (taskStep ok m)

/-- The machine state after a successful begin() (TFT7735V.cpp:83-181,
constructor 14-75, init_framebuffer 1017-1061, init_double_buffering
1506-1580): buffer 0 RENDERING and current, buffers 1 and 2 IDLE, dirty
tracking enabled, semaphore given, queue empty.  The constructor leaves the
dirty_rect member uninitialized, so it is a parameter. -/

def beginState (d0 : DirtyRect) : Machine where
  buffer_states := fun i => if i = 0 then .rendering else .idle
  render_buffer_idx := 0
  transfer_buffer_idx := 1
  dirty_rect := d0
  dirty_rect_enabled := true
  force_full_redraw := false
  display_in_progress := false
  display_done_flag := true
  done_semaphore := true
  queue := []
  fb_enabled := true
  inited := true
  txn := 0
  pixel_bytes := 0
  ctrl_bytes := 0

/-- States reachable from begin() by the public operations and by
transfer-worker iterations (with any SPI success oracle). -/

inductive Reach : Machine → Prop
  | begin (d0 : DirtyRect) : Reach (beginState d0)
  | disp {m} : Reach m → Reach (display m).2
  | swap {m} : Reach m → Reach (swapBuffers m)
  | wait {m} : Reach m → Reach (waitForDisplayDone m)
  | task {m} (ok : Nat → Bool) : Reach m → Reach (taskStep ok m)
  | mark {m} (x y w h : Nat) : Reach m → Reach (markDirty m x y w h)
  | clear {m} : Reach m → Reach (clearDirty m)
  | force {m} : Reach m → Reach (forceFullRedraw m)
  | enable {m} (b : Bool) : Reach m → Reach (enableDirtyRect m b)

/-- How many of the three framebuffers are in state s. -/

def count_state (m : Machine) (s : BufferState) : Nat :=
  (if m.buffer_states 0 = s then 1 else 0) +
  (if m.buffer_states 1 = s then 1 else 0) +
  (if m.buffer_states 2 = s then 1 else 0)

/-- The inductive invariant of the coordinator: the render index points at the
unique RENDERING buffer; while a display is in flight the transfer index
points at the unique TRANSFERRING buffer and the single queued message refers
to it; otherwise nothing is TRANSFERRING and the queue is empty. -/

def Inv (m : Machine) : Prop :=
  m.buffer_states m.render_buffer_idx = .rendering ∧
  (∀ j, m.buffer_states j = .rendering → j = m.render_buffer_idx) ∧
  (m.display_in_progress = true →
      m.buffer_states m.transfer_buffer_idx = .transferring ∧
      (∀ j, m.buffer_states j = .transferring → j = m.transfer_buffer_idx) ∧
      (∀ msg ∈ m.queue, msg.source_buffer_idx = m.transfer_buffer_idx) ∧
      m.queue.length = 1) ∧
  (m.display_in_progress = false →
      (∀ j, m.buffer_states j ≠ .transferring) ∧ m.queue = [])

/-- A machine state in which no buffer is IDLE (used as the C9 witness
input). -/

def allRenderingState : Machine :=
  { beginState clearedDirtyRect with buffer_states := fun _ => .rendering }

/-- A machine state with a display in flight (used as the C10 witness
input). -/

def inProgressState : Machine :=
  { beginState clearedDirtyRect with display_in_progress := true }

/-! ### C5: the dirty-rect accumulator round-trip -/

/-- A rasterizer mark input (x, y, w, h). -/

structure RectIn where
  x : Nat
  y : Nat
  w : Nat
  h : Nat
deriving DecidableEq, Repr

/-- Modelled from the spec round-trip wording: clip a mark input to the W x H
screen; `none` when the clipped input has no area. -/

def clip_to_screen (W H : Nat) (q : RectIn) : Option RectIn :=
  if q.x ≥ W ∨ q.y ≥ H then none
  else
    let w := if q.x + q.w > W then W - q.x else q.w
    let h := if q.y + q.h > H then H - q.y else q.h
    if w = 0 ∨ h = 0 then none else some ⟨q.x, q.y, w, h⟩

/-- Modelled from the spec: the axis-aligned bounding box of two rectangles
(min of the origins, max of the far corners). -/

def bbox_union (a b : RectIn) : RectIn :=
  let x1 := min a.x b.x
  let y1 := min a.y b.y
  let x2 := max (a.x + a.w) (b.x + b.w)
  let y2 := max (a.y + a.h) (b.y + b.h)
  ⟨x1, y1, x2 - x1, y2 - y1⟩

/-- Modelled from the spec round-trip property: the dirty rect predicted as
the bounding box of the union of the inputs clipped to the screen (invalid
when nothing survives clipping). -/

def bbox_of_marks (W H : Nat) (l : List RectIn) : DirtyRect :=
  match l.filterMap (clip_to_screen W H) with
  | [] => clearedDirtyRect
  | c :: cs => ⟨(cs.foldl bbox_union c).x, (cs.foldl bbox_union c).y,
               (cs.foldl bbox_union c).w, (cs.foldl bbox_union c).h, true⟩

/-- The rectangle part of a dirty rect. -/

def rect_of (r : DirtyRect) : RectIn := ⟨r.x, r.y, r.w, r.h⟩

/-- A valid dirty rect with the given rectangle. -/

def dirty_of (c : RectIn) : DirtyRect := ⟨c.x, c.y, c.w, c.h, true⟩

/-- One rasterizer mark folded into the dirty rect: the code path of
expand_dirty_rect with tracking enabled. -/

def mark_step_at (W H : Nat) (r : DirtyRect) (q : RectIn) : DirtyRect :=
  expand_dirty_rect W H true r q.x q.y q.w q.h

/-! ### Chunk chains of a single present -/

/-- Accumulated (pixel bytes, control bytes, transactions) of the dirty-mode
chunk chain k, k+1, ..., k+n that display_task self-enqueues
(TFT7735V.cpp:1653-1686), threading the transaction counter. -/

def dirty_chain_count (ok : Nat → Bool) (r : DirtyRect) :
    Nat → Nat → Nat → Nat × Nat × Nat
  | t, k, 0 => dirty_chunk_count ok t k r
  | t, k, n + 1 =>
    let a := dirty_chunk_count ok t k r
    let b := dirty_chain_count ok r (t + a.2.2) (k + 1) n
    (a.1 + b.1, a.2.1 + b.2.1, a.2.2 + b.2.2)

/-- Accumulated counts of the full-frame chunk chain k, ..., k+n. -/

def full_chain_count (ok : Nat → Bool) : Nat → Nat → Nat → Nat × Nat × Nat
  | t, k, 0 => full_chunk_count ok t k
  | t, k, n + 1 =>
    let a := full_chunk_count ok t k
    let b := full_chain_count ok (t + a.2.2) (k + 1) n
    (a.1 + b.1, a.2.1 + b.2.1, a.2.2 + b.2.2)

/-! ### Byte totals of error-free transfers -/

/-- The dirty rows of chunks k, k+1, ..., k+n (the chunk-local intersections
of the dirty row range [y, y+h) summed along the chain). -/

def chain_rows (y h : Nat) : Nat → Nat → Nat
  | k, 0 => min (y + h) (chunk_end k) - max y (k * CHUNK_HEIGHT)
  | k, n + 1 =>
    (min (y + h) (chunk_end k) - max y (k * CHUNK_HEIGHT)) + chain_rows y h (k + 1) n

/-! ### Reduction of display() on a ready machine -/

/-! ### One complete present, full-frame mode -/

/-! ### One complete present, dirty mode -/

/-! ### Claims about whole presents -/

/-- A ready machine with an invalid dirty rect (as clearDirty leaves it). -/

def readyFullState : Machine := beginState clearedDirtyRect

/-- A ready machine with force_full_redraw set and a non-empty dirty rect. -/

def forceFullState : Machine :=
  { beginState ⟨10, 10, 20, 20, true⟩ with force_full_redraw := true }

/-- A ready machine whose dirty rect (0,0,128,64) spans two chunks. -/

def dirtyTwoChunkState : Machine := beginState ⟨0, 0, 128, 64, true⟩

/-! ### C8: pixel-level effect of a chunk send -/

/-- __builtin_bswap16 on a 16-bit value held as a Nat. -/

def bswap16 (p : Nat) : Nat := p % 256 * 256 + p / 256

/-- In-place byte swap of buffer positions [lo, hi). -/

def swap_range (buf : Nat → Nat) (lo hi : Nat) : Nat → Nat :=
  fun i => if lo ≤ i ∧ i < hi then bswap16 (buf i) else buf i

/-- The SPI block loop of send_chunk_to_display acting on the bounce buffer
(TFT7735V.cpp:1768-1792): each block is byte-swapped in place, transmitted,
then swapped back; on a transmit error the function returns WITHOUT swapping
the current block back (the early return at cpp:1783-1785). -/

def send_chunk_buf (ok : Nat → Bool) (total : Nat) :
    Nat → Nat → Nat → (Nat → Nat) → (Nat → Nat) × Bool
  | 0, _, _, buf => (buf, true)
  | fuel + 1, t, offset, buf =>
    if offset < total then
      let cur := min SPI_CHUNK_PIXELS (total - offset)
      let swapped := swap_range buf offset (offset + cur)
      if ok t then
        send_chunk_buf ok total fuel (t + 1) (offset + cur)
          (swap_range swapped offset (offset + cur))
      else (swapped, false)
    else (buf, true)

/-- The per-row loop of send_dirty_chunk_to_display acting on the bounce
buffer (TFT7735V.cpp:2032-2059): each row slice is swapped, transmitted and
swapped back; on a transmit error the slice IS swapped back before the
early return (cpp:2048-2051). -/

def send_dirty_rows_buf (ok : Nat → Bool) (w : Nat) :
    Nat → Nat → Nat → (Nat → Nat) → (Nat → Nat) × Bool
  | _, _, 0, buf => (buf, true)
  | t, base, rows + 1, buf =>
    let swapped := swap_range buf base (base + w)
    let restored := swap_range swapped base (base + w)
    if ok t then
      send_dirty_rows_buf ok w (t + 1) (base + ST7735_WIDTH) rows restored
    else (restored, false)

/-- The memcpy of chunk k's full row range from the source framebuffer into
the bounce buffer (TFT7735V.cpp:1738-1742 and 1988-1992). -/

def copy_chunk (src : Nat → Nat) (k : Nat) (bounce : Nat → Nat) : Nat → Nat :=
  fun i => if i < ST7735_WIDTH * chunk_height_at k
           then src (k * CHUNK_HEIGHT * ST7735_WIDTH + i) else bounce i

/-- The pixel memory the transfer worker touches: three off-chip
framebuffers and the two on-chip bounce buffers. -/

structure PixelMem where
  fb : Fin 3 → Nat → Nat
  sram_a : Nat → Nat
  sram_b : Nat → Nat

/-- copy_chunk_and_send (TFT7735V.cpp:1701-1746) at the pixel level: stage
chunk k into the parity-selected bounce buffer, then send it. -/

def copy_chunk_and_send_mem (ok : Nat → Bool) (t : Nat) (mem : PixelMem)
    (k : Nat) (src : Fin 3) : PixelMem × Bool :=
  let bounce := if k % 2 = 0 then mem.sram_a else mem.sram_b
  let staged := copy_chunk (mem.fb src) k bounce
  let total := ST7735_WIDTH * chunk_height_at k
  let sent := send_chunk_buf ok total total t 0 staged
  (if k % 2 = 0 then { mem with sram_a := sent.1 }
   else { mem with sram_b := sent.1 }, sent.2)

/-- copy_dirty_chunk_and_send (TFT7735V.cpp:1936-1996) at the pixel level:
skip a non-intersecting chunk, otherwise stage the full chunk and send the
dirty row slices. -/

def copy_dirty_chunk_and_send_mem (ok : Nat → Bool) (t : Nat) (mem : PixelMem)
    (k : Nat) (src : Fin 3) (r : DirtyRect) : PixelMem × Bool :=
  if dirty_rows_in_chunk r k = 0 then (mem, true)
  else
    let bounce := if k % 2 = 0 then mem.sram_a else mem.sram_b
    let staged := copy_chunk (mem.fb src) k bounce
    let base := (max r.y (k * CHUNK_HEIGHT) - k * CHUNK_HEIGHT) *
      ST7735_WIDTH + r.x
    let sent := send_dirty_rows_buf ok r.w t base (dirty_rows_in_chunk r k)
      staged
    (if k % 2 = 0 then { mem with sram_a := sent.1 }
     else { mem with sram_b := sent.1 }, sent.2)

/-- All-zero pixel memory (used as the C8 witness input). -/

def zeroMem : PixelMem := ⟨fun _ _ => 0, fun _ => 0, fun _ => 0⟩

lemma find_idle_some {st : Fin 3 → BufferState} {j : Fin 3}
    (h : find_idle_buffer st = some j) : st j = .idle := by
  unfold find_idle_buffer at h
  split at h
  · cases h; assumption
  · split at h
    · cases h; assumption
    · split at h
      · cases h; assumption
      · cases h

lemma inv_beginState (d0 : DirtyRect) : Inv (beginState d0) := by
  refine ⟨rfl, ?_, ?_, ?_⟩
  · intro j hj
    fin_cases j
    · rfl
    · exact absurd hj (by simp [beginState])
    · exact absurd hj (by simp [beginState])
  · intro h
    cases h
  · intro _
    refine ⟨?_, rfl⟩
    intro j
    fin_cases j <;> simp [beginState]

lemma inv_display {m : Machine} (hm : Inv m) : Inv (display m).2 := by
  obtain ⟨hr, hru, hip, hnp⟩ := hm
  by_cases h1 : m.fb_enabled = true
  case neg => simp only [display, h1]; simp; exact ⟨hr, hru, hip, hnp⟩
  by_cases h2 : m.inited = true
  case neg => simp only [display, h1, h2]; simp; exact ⟨hr, hru, hip, hnp⟩
  by_cases h3 : m.display_in_progress = true
  case pos => simp only [display, h1, h2, h3]; simp; exact ⟨hr, hru, hip, hnp⟩
  have h3' : m.display_in_progress = false := by
    cases hd : m.display_in_progress
    · rfl
    · exact absurd hd h3
  obtain ⟨hnt, hqe⟩ := hnp h3'
  rcases hidle : find_idle_buffer m.buffer_states with _ | next
  · simp only [display, h1, h2, h3, hidle]
    simp
    exact ⟨hr, hru, hip, hnp⟩
  have hnidle : m.buffer_states next = .idle := find_idle_some hidle
  have hne : m.render_buffer_idx ≠ next := by
    intro he
    rw [he, hnidle] at hr
    cases hr
  simp only [display, h1, h2, h3, hidle, hqe]
  simp only [List.length_nil, QUEUE_CAPACITY, List.nil_append]
  norm_num
  refine ⟨?_, ?_, ?_, ?_⟩
  · simp [Function.update_same]
  · intro j hj
    simp only at hj
    by_cases hjn : j = next
    · exact hjn
    · rw [Function.update_noteq hjn] at hj
      by_cases hjr : j = m.render_buffer_idx
      · rw [hjr, Function.update_same] at hj
        cases hj
      · rw [Function.update_noteq hjr] at hj
        exact absurd (hru j hj) hjr
  · intro _
    refine ⟨?_, ?_, ?_, ?_⟩
    · simp only
      rw [Function.update_noteq hne, Function.update_same]
    · intro j hj
      simp only at hj ⊢
      by_cases hjn : j = next
      · rw [hjn, Function.update_same] at hj
        cases hj
      · rw [Function.update_noteq hjn] at hj
        by_cases hjr : j = m.render_buffer_idx
        · exact hjr
        · rw [Function.update_noteq hjr] at hj
          exact absurd hj (hnt j)
    · intro msg hmsg
      simp only [List.mem_singleton] at hmsg
      rw [hmsg]
    · rfl
  · intro hfalse
    cases hfalse

lemma inv_swapBuffers {m : Machine} (hm : Inv m) : Inv (swapBuffers m) := by
  obtain ⟨hr, hru, hip, hnp⟩ := hm
  by_cases h1 : m.fb_enabled = true
  case neg => simp only [swapBuffers, h1]; simp; exact ⟨hr, hru, hip, hnp⟩
  rcases hidle : find_idle_buffer m.buffer_states with _ | next
  · simp only [swapBuffers, h1, hidle]
    simp
    exact ⟨hr, hru, hip, hnp⟩
  have hnidle : m.buffer_states next = .idle := find_idle_some hidle
  have hne : m.render_buffer_idx ≠ next := by
    intro he
    rw [he, hnidle] at hr
    cases hr
  simp only [swapBuffers, h1, hidle]
  norm_num
  refine ⟨?_, ?_, ?_, ?_⟩
  · simp only
    rw [Function.update_noteq (Ne.symm hne), Function.update_same]
  · intro j hj
    simp only at hj
    by_cases hjr : j = m.render_buffer_idx
    · rw [hjr, Function.update_same] at hj
      cases hj
    · rw [Function.update_noteq hjr] at hj
      by_cases hjn : j = next
      · exact hjn
      · rw [Function.update_noteq hjn] at hj
        exact absurd (hru j hj) hjr
  · intro hp
    obtain ⟨htr, htu, hqs, hql⟩ := hip hp
    have htn : m.transfer_buffer_idx ≠ next := by
      intro he
      rw [he, hnidle] at htr
      cases htr
    have htrn : m.transfer_buffer_idx ≠ m.render_buffer_idx := by
      intro he
      rw [he, hr] at htr
      cases htr
    refine ⟨?_, ?_, hqs, hql⟩
    · simp only
      rw [Function.update_noteq htrn, Function.update_noteq htn]
      exact htr
    · intro j hj
      simp only at hj
      by_cases hjr : j = m.render_buffer_idx
      · rw [hjr, Function.update_same] at hj
        cases hj
      · rw [Function.update_noteq hjr] at hj
        by_cases hjn : j = next
        · rw [hjn, Function.update_same] at hj
          cases hj
        · rw [Function.update_noteq hjn] at hj
          exact htu j hj
  · intro hp
    obtain ⟨hnt, hqe⟩ := hnp hp
    refine ⟨?_, hqe⟩
    intro j
    simp only
    by_cases hjr : j = m.render_buffer_idx
    · rw [hjr, Function.update_same]
      intro h
      cases h
    · rw [Function.update_noteq hjr]
      by_cases hjn : j = next
      · rw [hjn, Function.update_same]
        intro h
        cases h
      · rw [Function.update_noteq hjn]
        exact hnt j

lemma inv_finish_job {m : Machine} {src : Fin 3}
    (hr : m.buffer_states m.render_buffer_idx = .rendering)
    (hru : ∀ j, m.buffer_states j = .rendering → j = m.render_buffer_idx)
    (htr : m.buffer_states src = .transferring)
    (htu : ∀ j, m.buffer_states j = .transferring → j = src)
    (hq : m.queue = []) :
    Inv (finish_job m src) := by
  have hsr : src ≠ m.render_buffer_idx := by
    intro he
    rw [he, hr] at htr
    cases htr
  refine ⟨?_, ?_, ?_, ?_⟩
  · simp only [finish_job]
    rw [Function.update_noteq (Ne.symm hsr)]
    exact hr
  · intro j hj
    simp only [finish_job] at hj
    by_cases hjs : j = src
    · rw [hjs, Function.update_same] at hj
      cases hj
    · rw [Function.update_noteq hjs] at hj
      exact hru j hj
  · intro hfalse
    simp only [finish_job] at hfalse
    cases hfalse
  · intro _
    refine ⟨?_, hq⟩
    intro j
    simp only [finish_job]
    by_cases hjs : j = src
    · rw [hjs, Function.update_same]
      intro h
      cases h
    · rw [Function.update_noteq hjs]
      intro h
      exact hjs (htu j h)

lemma inv_taskStep {m : Machine} (ok : Nat → Bool) (hm : Inv m) :
    Inv (taskStep ok m) := by
  obtain ⟨hr, hru, hip, hnp⟩ := hm
  rcases hq : m.queue with _ | ⟨msg, rest⟩
  · simp only [taskStep, hq]
    exact ⟨hr, hru, hip, hnp⟩
  have hp : m.display_in_progress = true := by
    cases hd : m.display_in_progress
    · obtain ⟨_, hqe⟩ := hnp hd
      rw [hqe] at hq
      cases hq
    · rfl
  obtain ⟨htr, htu, hqs, hql⟩ := hip hp
  have hrest : rest = [] := by
    rw [hq] at hql
    simpa using hql
  have hsrc : msg.source_buffer_idx = m.transfer_buffer_idx := by
    apply hqs
    rw [hq]
    exact List.mem_cons_self _ _
  subst hrest
  have htr' : m.buffer_states msg.source_buffer_idx = .transferring := by
    rw [hsrc]; exact htr
  have htu' : ∀ j, m.buffer_states j = .transferring → j = msg.source_buffer_idx := by
    intro j hj
    rw [hsrc]
    exact htu j hj
  simp only [taskStep, hq]
  split
  · apply inv_finish_job
    · exact hr
    · exact hru
    · exact htr'
    · exact htu'
    · rfl
  · split
    · split
      · apply inv_finish_job
        · exact hr
        · exact hru
        · exact htr'
        · exact htu'
        · rfl
      · split
        · refine ⟨hr, hru, ?_, ?_⟩
          · intro _
            refine ⟨htr, htu, ?_, rfl⟩
            intro msg2 hmsg2
            simp only [List.nil_append, List.mem_singleton] at hmsg2
            rw [hmsg2]
            exact hsrc
          · intro hfalse
            exact absurd (hp.symm.trans hfalse) (by decide)
        · rename_i hcap
          exfalso
          apply hcap
          simp [QUEUE_CAPACITY]
    · split
      · apply inv_finish_job
        · exact hr
        · exact hru
        · exact htr'
        · exact htu'
        · rfl
      · split
        · refine ⟨hr, hru, ?_, ?_⟩
          · intro _
            refine ⟨htr, htu, ?_, rfl⟩
            intro msg2 hmsg2
            simp only [List.nil_append, List.mem_singleton] at hmsg2
            rw [hmsg2]
            exact hsrc
          · intro hfalse
            exact absurd (hp.symm.trans hfalse) (by decide)
        · rename_i hcap
          exfalso
          apply hcap
          simp [QUEUE_CAPACITY]

lemma inv_dirty_only {m m2 : Machine}
    (hbs : m2.buffer_states = m.buffer_states)
    (hri : m2.render_buffer_idx = m.render_buffer_idx)
    (hti : m2.transfer_buffer_idx = m.transfer_buffer_idx)
    (hdp : m2.display_in_progress = m.display_in_progress)
    (hqu : m2.queue = m.queue) (hm : Inv m) : Inv m2 := by
  obtain ⟨hr, hru, hip, hnp⟩ := hm
  refine ⟨?_, ?_, ?_, ?_⟩
  · rw [hbs, hri]; exact hr
  · intro j hj
    rw [hbs] at hj
    rw [hri]
    exact hru j hj
  · intro hpp
    rw [hdp] at hpp
    obtain ⟨a, b, c, d⟩ := hip hpp
    rw [hbs, hti, hqu]
    exact ⟨a, fun j hj => b j hj, c, d⟩
  · intro hpp
    rw [hdp] at hpp
    obtain ⟨a, b⟩ := hnp hpp
    rw [hbs, hqu]
    exact ⟨a, b⟩

lemma reach_inv {m : Machine} (h : Reach m) : Inv m := by
  induction h with
  | begin d0 => exact inv_beginState d0
  | disp _ ih => exact inv_display ih
  | swap _ ih => exact inv_swapBuffers ih
  | wait _ ih => exact ih
  | task ok _ ih => exact inv_taskStep ok ih
  | mark x y w h _ ih => exact inv_dirty_only rfl rfl rfl rfl rfl ih
  | clear _ ih => exact inv_dirty_only rfl rfl rfl rfl rfl ih
  | force _ ih => exact inv_dirty_only rfl rfl rfl rfl rfl ih
  | enable b _ ih =>
    unfold enableDirtyRect
    split
    · exact inv_dirty_only rfl rfl rfl rfl rfl ih
    · exact inv_dirty_only rfl rfl rfl rfl rfl ih

lemma count_total (m : Machine) :
    count_state m .rendering + count_state m .transferring + count_state m .idle = 3 := by
  unfold count_state
  rcases h0 : m.buffer_states 0 <;> rcases h1 : m.buffer_states 1 <;>
    rcases h2 : m.buffer_states 2 <;> simp

lemma count_unique_one {m : Machine} {s : BufferState} {r : Fin 3}
    (hrs : m.buffer_states r = s)
    (hu : ∀ j, m.buffer_states j = s → j = r) :
    count_state m s = 1 := by
  have hiff : ∀ j : Fin 3, (m.buffer_states j = s) ↔ j = r :=
    fun j => ⟨hu j, fun hj => by rw [hj]; exact hrs⟩
  unfold count_state
  simp only [hiff]
  fin_cases r <;> decide

lemma count_none_zero {m : Machine} {s : BufferState}
    (h : ∀ j, m.buffer_states j ≠ s) : count_state m s = 0 := by
  unfold count_state
  rw [if_neg (h 0), if_neg (h 1), if_neg (h 2)]

/-- C1: after begin() and after every public operation (display, swapBuffers,
waitForDisplayDone, rasterizer marks, dirty controls) and every
transfer-worker step, exactly one of the three framebuffers is RENDERING,
at most one is TRANSFERRING, and the remaining buffers are IDLE: the state
multiset is RENDERING x1, TRANSFERRING x(0 or 1), IDLE for the rest,
summing to 3. -/

theorem C1_buffer_state_multiset {m : Machine} (h : Reach m) :
    count_state m .rendering = 1 ∧
    count_state m .transferring ≤ 1 ∧
    count_state m .rendering + count_state m .transferring +
      count_state m .idle = 3 := by
  obtain ⟨hr, hru, hip, hnp⟩ := reach_inv h
  refine ⟨count_unique_one hr hru, ?_, count_total m⟩
  cases hd : m.display_in_progress
  · rw [count_none_zero (hnp hd).1]
    exact Nat.zero_le 1
  · obtain ⟨htr, htu, _, _⟩ := hip hd
    exact le_of_eq (count_unique_one htr htu)

/-- Witness for C1 at the begin() state itself. -/

theorem C1_buffer_state_multiset_witness :
    Reach (beginState clearedDirtyRect) ∧
    (count_state (beginState clearedDirtyRect) .rendering = 1 ∧
     count_state (beginState clearedDirtyRect) .transferring ≤ 1 ∧
     count_state (beginState clearedDirtyRect) .rendering +
       count_state (beginState clearedDirtyRect) .transferring +
       count_state (beginState clearedDirtyRect) .idle = 3) :=
  ⟨Reach.begin clearedDirtyRect,
    C1_buffer_state_multiset (Reach.begin clearedDirtyRect)⟩

/-- C9: a present (display()) call made when no framebuffer is in state IDLE
fails with BUSY and performs no mutation: the buffer states, render-buffer
index, current-framebuffer index, dirty rect, completion flags and queue are
all unchanged and no job is enqueued (the result state is the input state). -/

theorem C9_busy_no_mutation (m : Machine)
    (hfb : m.fb_enabled = true) (hin : m.inited = true)
    (hp : m.display_in_progress = false)
    (hidle : find_idle_buffer m.buffer_states = none) :
    display m = (.busy, m) := by
  simp [display, hfb, hin, hp, hidle]

/-- Witness for C9: all three buffers busy. -/

theorem C9_busy_no_mutation_witness :
    display allRenderingState = (.busy, allRenderingState) :=
  C9_busy_no_mutation allRenderingState rfl rfl rfl rfl

/-- C10: a display() call made while display_in_progress is true returns
without modifying buffer states, the render target, the dirty rect, or the
job queue: the state is returned unchanged, so a second present can take
effect only after the in-flight transfer completes and clears the flag. -/

theorem C10_second_present_rejected (m : Machine)
    (hp : m.display_in_progress = true) : (display m).2 = m := by
  by_cases hfb : m.fb_enabled = true
  · by_cases hin : m.inited = true
    · simp [display, hfb, hin, hp]
    · simp [display, hfb, hin]
  · simp [display, hfb]

/-- Witness for C10. -/

theorem C10_second_present_rejected_witness :
    (display inProgressState).2 = inProgressState :=
  C10_second_present_rejected inProgressState rfl

lemma mark_step_eq (W H : Nat) (r : DirtyRect) (q : RectIn) :
    mark_step_at W H r q =
      match clip_to_screen W H q with
      | none => r
      | some c =>
        if r.valid then dirty_of (bbox_union (rect_of r) c) else dirty_of c := by
  rcases q with ⟨x, y, w, h⟩
  unfold mark_step_at expand_dirty_rect clip_to_screen dirty_of bbox_union rect_of
  simp only [not_true, if_false, ite_not]
  split_ifs <;> simp_all

lemma fold_mark_valid (W H : Nat) (l : List RectIn) :
    ∀ c : RectIn, l.foldl (mark_step_at W H) (dirty_of c) =
      dirty_of ((l.filterMap (clip_to_screen W H)).foldl bbox_union c) := by
  induction l with
  | nil => intro c; rfl
  | cons q l ih =>
    intro c
    simp only [List.foldl_cons, List.filterMap_cons]
    rcases hc : clip_to_screen W H q with _ | d
    · rw [mark_step_eq, hc]
      exact ih c
    · rw [mark_step_eq, hc]
      exact ih (bbox_union c d)

/-- C5: for every sequence of dirty-mark calls (expand_dirty_rect) starting
from the invalid dirty rect, the resulting dirty rect equals the axis-aligned
bounding box of the union of the inputs clipped to the screen: an invalid
rect adopts the clipped input, a valid rect expands to (min x, min y,
max x+w, max y+h); out-of-bounds inputs are clipped and zero-area inputs
leave the rect unchanged. -/

theorem C5_dirty_rect_roundtrip (l : List RectIn) :
    l.foldl (mark_step_at ST7735_WIDTH ST7735_HEIGHT) clearedDirtyRect =
      bbox_of_marks ST7735_WIDTH ST7735_HEIGHT l := by
  induction l with
  | nil => rfl
  | cons q l ih =>
    simp only [List.foldl_cons]
    rw [mark_step_eq]
    rcases hc : clip_to_screen ST7735_WIDTH ST7735_HEIGHT q with _ | d
    · rw [show bbox_of_marks ST7735_WIDTH ST7735_HEIGHT (q :: l) = bbox_of_marks ST7735_WIDTH ST7735_HEIGHT l from by
        unfold bbox_of_marks
        rw [List.filterMap_cons, hc]]
      exact ih
    · have h1 : List.foldl (mark_step_at ST7735_WIDTH ST7735_HEIGHT) (dirty_of d) l =
          dirty_of ((l.filterMap (clip_to_screen ST7735_WIDTH ST7735_HEIGHT)).foldl bbox_union d) :=
        fold_mark_valid _ _ l d
      refine Eq.trans h1 ?_
      unfold bbox_of_marks
      rw [List.filterMap_cons, hc]
      rfl

lemma dirty_chain_run (ok : Nat → Bool) (r : DirtyRect) (src : Fin 3)
    (hval : r.valid = true) :
    ∀ (n : Nat), ∀ (k : Nat) (flag : Bool) (m : Machine),
      m.inited = true →
      m.queue = [⟨k, flag, src, true, r⟩] →
      k + n = (calculate_dirty_chunks r).2.2 →
      (flag = true → n = 0) →
      runSteps ok (n + 1) m =
        { m with
            buffer_states := Function.update m.buffer_states src .idle
            dirty_rect := clearedDirtyRect
            force_full_redraw := false
            display_in_progress := false
            display_done_flag := true
            done_semaphore := true
            queue := []
            txn := m.txn + (dirty_chain_count ok r m.txn k n).2.2
            pixel_bytes := m.pixel_bytes + (dirty_chain_count ok r m.txn k n).1
            ctrl_bytes := m.ctrl_bytes + (dirty_chain_count ok r m.txn k n).2.1 } := by
  intro n
  induction n with
  | zero =>
    intro k flag m hinit hq hke _
    show runSteps ok 1 m = _
    rw [show runSteps ok 1 m = taskStep ok m from rfl]
    cases flag
    · have hgt : (⟨k, false, src, true, r⟩ : DisplayMessage).chunk_idx + 1 >
          (calculate_dirty_chunks (⟨k, false, src, true, r⟩ : DisplayMessage).dirty_rect).2.2 := by
        show k + 1 > (calculate_dirty_chunks r).2.2
        omega
      simp only [taskStep, hq, hinit, hval, Bool.true_and, Bool.false_eq_true,
        eq_self_iff_true, not_true, if_true, if_false, ite_true, ite_false, hgt]
      simp only [finish_job, dirty_chain_count]
    · simp only [taskStep, hq, hinit, hval, Bool.true_and, Bool.false_eq_true,
        eq_self_iff_true, not_true, if_true, if_false, ite_true, ite_false]
      simp only [finish_job, dirty_chain_count]
  | succ n ih =>
    intro k flag m hinit hq hke hflag
    have hfl : flag = false := by
      cases flag
      · rfl
      · exact absurd (hflag rfl) (by omega)
    subst hfl
    have hlt : ¬ ((⟨k, false, src, true, r⟩ : DisplayMessage).chunk_idx + 1 >
        (calculate_dirty_chunks (⟨k, false, src, true, r⟩ : DisplayMessage).dirty_rect).2.2) := by
      show ¬ (k + 1 > (calculate_dirty_chunks r).2.2)
      omega
    have hstep : taskStep ok m =
        { m with
            queue := [⟨k + 1, false, src, true, r⟩]
            txn := m.txn + (dirty_chunk_count ok m.txn k r).2.2
            pixel_bytes := m.pixel_bytes + (dirty_chunk_count ok m.txn k r).1
            ctrl_bytes := m.ctrl_bytes + (dirty_chunk_count ok m.txn k r).2.1 } := by
      simp only [taskStep, hq, hinit, hval, Bool.true_and, Bool.false_eq_true,
        eq_self_iff_true, not_true, if_true, if_false, ite_true, ite_false, hlt]
      norm_num [QUEUE_CAPACITY]
    rw [show runSteps ok (n + 1 + 1) m = runSteps ok (n + 1) (taskStep ok m) from rfl,
      hstep]
    rw [ih (k + 1) false
      { m with
          queue := [⟨k + 1, false, src, true, r⟩]
          txn := m.txn + (dirty_chunk_count ok m.txn k r).2.2
          pixel_bytes := m.pixel_bytes + (dirty_chunk_count ok m.txn k r).1
          ctrl_bytes := m.ctrl_bytes + (dirty_chunk_count ok m.txn k r).2.1 }
      hinit rfl (by omega) (fun h => by cases h)]
    simp only [dirty_chain_count, Machine.mk.injEq, eq_self_iff_true, true_and,
      and_true]
    omega

lemma full_chain_run (ok : Nat → Bool) (src : Fin 3) :
    ∀ (n : Nat), ∀ (k : Nat) (flag : Bool) (m : Machine),
      m.inited = true →
      m.queue = [⟨k, flag, src, false, ⟨0, 0, 0, 0, false⟩⟩] →
      k + n = MAX_CHUNKS - 1 →
      (flag = true → n = 0) →
      runSteps ok (n + 1) m =
        { m with
            buffer_states := Function.update m.buffer_states src .idle
            dirty_rect := clearedDirtyRect
            force_full_redraw := false
            display_in_progress := false
            display_done_flag := true
            done_semaphore := true
            queue := []
            txn := m.txn + (full_chain_count ok m.txn k n).2.2
            pixel_bytes := m.pixel_bytes + (full_chain_count ok m.txn k n).1
            ctrl_bytes := m.ctrl_bytes + (full_chain_count ok m.txn k n).2.1 } := by
  have hmc : MAX_CHUNKS = 5 := rfl
  intro n
  induction n with
  | zero =>
    intro k flag m hinit hq hke _
    show runSteps ok 1 m = _
    rw [show runSteps ok 1 m = taskStep ok m from rfl]
    cases flag
    · have hgt : MAX_CHUNKS ≤ (⟨k, false, src, false, ⟨0, 0, 0, 0, false⟩⟩ :
          DisplayMessage).chunk_idx + 1 := by
        show MAX_CHUNKS ≤ k + 1
        omega
      simp only [taskStep, hq, hinit, Bool.false_and, Bool.false_eq_true,
        eq_self_iff_true, not_true, if_true, if_false, ite_true, ite_false, hgt]
      simp only [finish_job, full_chain_count]
    · simp only [taskStep, hq, hinit, Bool.false_and, Bool.false_eq_true,
        eq_self_iff_true, not_true, if_true, if_false, ite_true, ite_false]
      simp only [finish_job, full_chain_count]
  | succ n ih =>
    intro k flag m hinit hq hke hflag
    have hfl : flag = false := by
      cases flag
      · rfl
      · exact absurd (hflag rfl) (by omega)
    subst hfl
    have hlt : ¬ (MAX_CHUNKS ≤ (⟨k, false, src, false, ⟨0, 0, 0, 0, false⟩⟩ :
        DisplayMessage).chunk_idx + 1) := by
      show ¬ (MAX_CHUNKS ≤ k + 1)
      omega
    have hstep : taskStep ok m =
        { m with
            queue := [⟨k + 1, false, src, false, ⟨0, 0, 0, 0, false⟩⟩]
            txn := m.txn + (full_chunk_count ok m.txn k).2.2
            pixel_bytes := m.pixel_bytes + (full_chunk_count ok m.txn k).1
            ctrl_bytes := m.ctrl_bytes + (full_chunk_count ok m.txn k).2.1 } := by
      simp only [taskStep, hq, hinit, Bool.false_and, Bool.false_eq_true,
        eq_self_iff_true, not_true, if_true, if_false, ite_true, ite_false, hlt]
      norm_num [QUEUE_CAPACITY]
    rw [show runSteps ok (n + 1 + 1) m = runSteps ok (n + 1) (taskStep ok m) from rfl,
      hstep]
    rw [ih (k + 1) false
      { m with
          queue := [⟨k + 1, false, src, false, ⟨0, 0, 0, 0, false⟩⟩]
          txn := m.txn + (full_chunk_count ok m.txn k).2.2
          pixel_bytes := m.pixel_bytes + (full_chunk_count ok m.txn k).1
          ctrl_bytes := m.ctrl_bytes + (full_chunk_count ok m.txn k).2.1 }
      hinit rfl (by omega) (fun h => by cases h)]
    simp only [full_chain_count, Machine.mk.injEq, eq_self_iff_true, true_and,
      and_true]
    omega

lemma send_rows_count_ok (w : Nat) : ∀ (rows t : Nat),
    send_rows_count (fun _ => true) w t rows = (2 * w * rows, rows, true) := by
  intro rows
  induction rows with
  | zero => intro t; rfl
  | succ n ih =>
    intro t
    simp only [send_rows_count, ih (t + 1), eq_self_iff_true, if_true, ite_true]
    simp only [Prod.mk.injEq, and_true, true_and]
    ring

lemma send_blocks_count_ok_pixels : ∀ (fuel : Nat), ∀ (t rem : Nat), rem ≤ fuel →
    (send_blocks_count (fun _ => true) fuel t rem).1 = 2 * rem := by
  intro fuel
  induction fuel with
  | zero =>
    intro t rem h
    have h0 : rem = 0 := Nat.le_zero.mp h
    subst h0
    rfl
  | succ n ih =>
    intro t rem h
    by_cases h0 : rem = 0
    · subst h0
      rfl
    · simp only [send_blocks_count, h0, if_false, ite_false, eq_self_iff_true,
        if_true, ite_true]
      have hcur_le : min SPI_CHUNK_PIXELS rem ≤ rem := Nat.min_le_right _ _
      have hcur_pos : 1 ≤ min SPI_CHUNK_PIXELS rem :=
        Nat.le_min.mpr ⟨by norm_num [SPI_CHUNK_PIXELS], Nat.one_le_iff_ne_zero.mpr h0⟩
      rw [ih (t + 1) (rem - min SPI_CHUNK_PIXELS rem) (by omega)]
      omega

lemma dirty_chunk_count_ok_pixels (t k : Nat) (r : DirtyRect) :
    (dirty_chunk_count (fun _ => true) t k r).1 =
      2 * r.w * dirty_rows_in_chunk r k := by
  unfold dirty_chunk_count
  by_cases h : dirty_rows_in_chunk r k = 0
  · simp [h]
  · simp [h, send_rows_count_ok]

lemma dirty_chain_count_ok_pixels (r : DirtyRect) : ∀ (n k t : Nat),
    (dirty_chain_count (fun _ => true) r t k n).1 =
      2 * r.w * chain_rows r.y r.h k n := by
  intro n
  induction n with
  | zero =>
    intro k t
    simp only [dirty_chain_count, chain_rows]
    rw [dirty_chunk_count_ok_pixels]
    rfl
  | succ n ih =>
    intro k t
    simp only [dirty_chain_count, chain_rows]
    rw [dirty_chunk_count_ok_pixels, ih (k + 1)]
    unfold dirty_rows_in_chunk
    ring

/-- Telescoping identity: the chunk-local dirty rows of a chain whose ends
cover the row range sum to the intersection of the range with the chain
extent (no bottom clamping while the chain stays on screen). -/

lemma chain_rows_span : ∀ (n k y h : Nat), y ≤ CHUNK_HEIGHT * (k + 1) →
    CHUNK_HEIGHT * (k + n) ≤ y + h →
    CHUNK_HEIGHT * (k + n + 1) ≤ ST7735_HEIGHT →
    chain_rows y h k n =
      min (y + h) (CHUNK_HEIGHT * (k + n + 1)) - max y (CHUNK_HEIGHT * k) := by
  intro n
  induction n with
  | zero =>
    intro k y h h1 h2 h3
    simp only [chain_rows, chunk_end]
    have e1 : CHUNK_HEIGHT = 32 := rfl
    have e2 : ST7735_HEIGHT = 160 := rfl
    simp only [e1, e2] at h1 h2 h3 ⊢
    omega
  | succ n ih =>
    intro k y h h1 h2 h3
    have e1 : CHUNK_HEIGHT = 32 := rfl
    have e2 : ST7735_HEIGHT = 160 := rfl
    simp only [chain_rows, chunk_end]
    rw [ih (k + 1) y h (by simp only [e1] at h1 ⊢; omega)
      (by simp only [e1] at h2 ⊢; omega) (by simp only [e1, e2] at h3 ⊢; omega)]
    simp only [e1, e2] at h1 h2 h3 ⊢
    omega

/-- Core arithmetic: along the chunk chain from the first to the last touched
chunk, the chunk-local dirty rows sum to the full dirty height, for every
clipped row range. -/

lemma chain_rows_total (y h : Nat) (hh : 1 ≤ h) (hyh : y + h ≤ ST7735_HEIGHT) :
    chain_rows y h (y / CHUNK_HEIGHT)
      ((y + h - 1) / CHUNK_HEIGHT - y / CHUNK_HEIGHT) = h := by
  have e1 : CHUNK_HEIGHT = 32 := rfl
  have e2 : ST7735_HEIGHT = 160 := rfl
  rw [e2] at hyh
  have c1 : y ≤ CHUNK_HEIGHT * (y / CHUNK_HEIGHT + 1) := by
    rw [e1]
    omega
  have c2 : CHUNK_HEIGHT * (y / CHUNK_HEIGHT +
      ((y + h - 1) / CHUNK_HEIGHT - y / CHUNK_HEIGHT)) ≤ y + h := by
    rw [e1]
    omega
  have c3 : CHUNK_HEIGHT * (y / CHUNK_HEIGHT +
      ((y + h - 1) / CHUNK_HEIGHT - y / CHUNK_HEIGHT) + 1) ≤ ST7735_HEIGHT := by
    rw [e1, e2]
    omega
  rw [chain_rows_span _ _ _ _ c1 c2 c3, e1]
  rw [e1] at c1 c2 c3
  omega

lemma full_chunk_count_ok_pixels (t k : Nat) :
    (full_chunk_count (fun _ => true) t k).1 =
      2 * (ST7735_WIDTH * chunk_height_at k) := by
  unfold full_chunk_count
  exact send_blocks_count_ok_pixels _ _ _ le_rfl

lemma full_chain_count_ok_pixels_total (t : Nat) :
    (full_chain_count (fun _ => true) t 0 (MAX_CHUNKS - 1)).1 =
      2 * (ST7735_WIDTH * ST7735_HEIGHT) := by
  have hmc : MAX_CHUNKS - 1 = 4 := rfl
  rw [hmc]
  simp only [full_chain_count]
  simp only [full_chunk_count_ok_pixels]
  norm_num [chunk_height_at, chunk_end, CHUNK_HEIGHT, SRAM_BUFFER_SIZE,
    ST7735_WIDTH, ST7735_HEIGHT]

lemma full_chain_count_ctrl_total (ok : Nat → Bool) (t : Nat) :
    (full_chain_count ok t 0 (MAX_CHUNKS - 1)).2.1 =
      MAX_CHUNKS * set_addr_window_bytes := by
  have hmc : MAX_CHUNKS - 1 = 4 := rfl
  rw [hmc]
  simp only [full_chain_count, full_chunk_count]
  norm_num [MAX_CHUNKS, set_addr_window_bytes, write_command_bytes,
    write_data_bytes, CHUNK_HEIGHT, SRAM_BUFFER_SIZE, ST7735_WIDTH, ST7735_HEIGHT]

lemma display_ready_dirty (m : Machine) (next : Fin 3)
    (hfb : m.fb_enabled = true) (hin : m.inited = true)
    (hp : m.display_in_progress = false) (hq : m.queue = [])
    (hidle : find_idle_buffer m.buffer_states = some next)
    (hde : m.dirty_rect_enabled = true) (hdv : m.dirty_rect.valid = true)
    (hff : m.force_full_redraw = false) :
    (display m).2 =
      { m with
          buffer_states := Function.update
            (Function.update m.buffer_states m.render_buffer_idx .transferring)
            next .rendering
          transfer_buffer_idx := m.render_buffer_idx
          render_buffer_idx := next
          display_in_progress := true
          display_done_flag := false
          done_semaphore := false
          queue := [⟨(calculate_dirty_chunks m.dirty_rect).2.1,
                     decide ((calculate_dirty_chunks m.dirty_rect).1 = 1),
                     m.render_buffer_idx, true, m.dirty_rect⟩] } := by
  simp only [display, hfb, hin, hp, hidle, hde, hdv, hff, hq, Bool.not_false,
    Bool.true_and, Bool.and_true, Bool.false_eq_true, eq_self_iff_true,
    not_true, if_true, if_false, ite_true, ite_false, List.length_nil,
    List.nil_append]
  norm_num [QUEUE_CAPACITY]

lemma display_ready_full (m : Machine) (next : Fin 3)
    (hfb : m.fb_enabled = true) (hin : m.inited = true)
    (hp : m.display_in_progress = false) (hq : m.queue = [])
    (hidle : find_idle_buffer m.buffer_states = some next)
    (hnd : (m.dirty_rect_enabled && m.dirty_rect.valid &&
      !m.force_full_redraw) = false) :
    (display m).2 =
      { m with
          buffer_states := Function.update
            (Function.update m.buffer_states m.render_buffer_idx .transferring)
            next .rendering
          transfer_buffer_idx := m.render_buffer_idx
          render_buffer_idx := next
          display_in_progress := true
          display_done_flag := false
          done_semaphore := false
          queue := [⟨0, false, m.render_buffer_idx, false,
                     ⟨0, 0, 0, 0, false⟩⟩] } := by
  simp only [display, hfb, hin, hp, hidle, hnd, Bool.false_eq_true,
    eq_self_iff_true, not_true, if_true, if_false, ite_true, ite_false,
    List.length_nil, List.nil_append, hq]
  norm_num [QUEUE_CAPACITY]
  decide

lemma full_present_run (ok : Nat → Bool) (m : Machine) (next : Fin 3)
    (hfb : m.fb_enabled = true) (hin : m.inited = true)
    (hp : m.display_in_progress = false) (hq : m.queue = [])
    (hidle : find_idle_buffer m.buffer_states = some next)
    (hnd : (m.dirty_rect_enabled && m.dirty_rect.valid &&
      !m.force_full_redraw) = false) :
    runSteps ok MAX_CHUNKS (display m).2 =
      { m with
          buffer_states := Function.update (Function.update
            (Function.update m.buffer_states m.render_buffer_idx
              .transferring) next .rendering) m.render_buffer_idx .idle
          transfer_buffer_idx := m.render_buffer_idx
          render_buffer_idx := next
          dirty_rect := clearedDirtyRect
          force_full_redraw := false
          display_in_progress := false
          display_done_flag := true
          done_semaphore := true
          queue := []
          txn := m.txn + (full_chain_count ok m.txn 0 4).2.2
          pixel_bytes := m.pixel_bytes + (full_chain_count ok m.txn 0 4).1
          ctrl_bytes := m.ctrl_bytes + (full_chain_count ok m.txn 0 4).2.1 } := by
  rw [display_ready_full m next hfb hin hp hq hidle hnd,
    show MAX_CHUNKS = 4 + 1 from rfl]
  apply full_chain_run ok m.render_buffer_idx 4 0 false
  · exact hin
  · rfl
  · rfl
  · intro h
    cases h

lemma dirty_present_run (ok : Nat → Bool) (m : Machine) (next : Fin 3)
    (hfb : m.fb_enabled = true) (hin : m.inited = true)
    (hp : m.display_in_progress = false) (hq : m.queue = [])
    (hidle : find_idle_buffer m.buffer_states = some next)
    (hde : m.dirty_rect_enabled = true) (hdv : m.dirty_rect.valid = true)
    (hff : m.force_full_redraw = false)
    (hh : 1 ≤ m.dirty_rect.h)
    (hyh : m.dirty_rect.y + m.dirty_rect.h ≤ ST7735_HEIGHT) :
    runSteps ok (calculate_dirty_chunks m.dirty_rect).1 (display m).2 =
      { m with
          buffer_states := Function.update (Function.update
            (Function.update m.buffer_states m.render_buffer_idx
              .transferring) next .rendering) m.render_buffer_idx .idle
          transfer_buffer_idx := m.render_buffer_idx
          render_buffer_idx := next
          dirty_rect := clearedDirtyRect
          force_full_redraw := false
          display_in_progress := false
          display_done_flag := true
          done_semaphore := true
          queue := []
          txn := m.txn + (dirty_chain_count ok m.dirty_rect m.txn
            (m.dirty_rect.y / CHUNK_HEIGHT)
            ((m.dirty_rect.y + m.dirty_rect.h - 1) / CHUNK_HEIGHT -
              m.dirty_rect.y / CHUNK_HEIGHT)).2.2
          pixel_bytes := m.pixel_bytes + (dirty_chain_count ok m.dirty_rect m.txn
            (m.dirty_rect.y / CHUNK_HEIGHT)
            ((m.dirty_rect.y + m.dirty_rect.h - 1) / CHUNK_HEIGHT -
              m.dirty_rect.y / CHUNK_HEIGHT)).1
          ctrl_bytes := m.ctrl_bytes + (dirty_chain_count ok m.dirty_rect m.txn
            (m.dirty_rect.y / CHUNK_HEIGHT)
            ((m.dirty_rect.y + m.dirty_rect.h - 1) / CHUNK_HEIGHT -
              m.dirty_rect.y / CHUNK_HEIGHT)).2.1 } := by
  have e1 : CHUNK_HEIGHT = 32 := rfl
  have e2 : ST7735_HEIGHT = 160 := rfl
  have e5 : MAX_CHUNKS = 5 := rfl
  have hyh2 := hyh
  rw [e2] at hyh2
  have hsc : ¬ (m.dirty_rect.y / CHUNK_HEIGHT ≥ MAX_CHUNKS) := by
    rw [e1, e5]
    omega
  have hec : ¬ ((m.dirty_rect.y + m.dirty_rect.h - 1) / CHUNK_HEIGHT ≥
      MAX_CHUNKS) := by
    rw [e1, e5]
    omega
  have hcalc : calculate_dirty_chunks m.dirty_rect =
      ((m.dirty_rect.y + m.dirty_rect.h - 1) / CHUNK_HEIGHT -
         m.dirty_rect.y / CHUNK_HEIGHT + 1,
       m.dirty_rect.y / CHUNK_HEIGHT,
       (m.dirty_rect.y + m.dirty_rect.h - 1) / CHUNK_HEIGHT) := by
    unfold calculate_dirty_chunks
    rw [hdv]
    simp only [not_true, Bool.true_eq_false, if_true, if_false, ite_true,
      ite_false, hsc, hec]
  rw [display_ready_dirty m next hfb hin hp hq hidle hde hdv hff, hcalc]
  apply dirty_chain_run ok m.dirty_rect m.render_buffer_idx hdv
    ((m.dirty_rect.y + m.dirty_rect.h - 1) / CHUNK_HEIGHT -
      m.dirty_rect.y / CHUNK_HEIGHT)
    (m.dirty_rect.y / CHUNK_HEIGHT)
    (decide ((m.dirty_rect.y + m.dirty_rect.h - 1) / CHUNK_HEIGHT -
      m.dirty_rect.y / CHUNK_HEIGHT + 1 = 1))
  · exact hin
  · rfl
  · rw [hcalc]
    dsimp only
    rw [e1]
    omega
  · intro hd
    have hd2 := of_decide_eq_true hd
    omega

/-- C6: a dirty-rect present that completes without transmit error, with
dirty tracking enabled, a valid dirty rect clipped to the screen and
force_full_redraw unset, transmits exactly 2 * dw * dh pixel bytes over the
per-row serial transfers of all touched chunks. -/

theorem C6_dirty_present_pixel_bytes (m : Machine) (next : Fin 3)
    (hfb : m.fb_enabled = true) (hin : m.inited = true)
    (hp : m.display_in_progress = false) (hq : m.queue = [])
    (hidle : find_idle_buffer m.buffer_states = some next)
    (hde : m.dirty_rect_enabled = true) (hdv : m.dirty_rect.valid = true)
    (hff : m.force_full_redraw = false)
    (hh : 1 ≤ m.dirty_rect.h)
    (hyh : m.dirty_rect.y + m.dirty_rect.h ≤ ST7735_HEIGHT) :
    (runSteps (fun _ => true) (calculate_dirty_chunks m.dirty_rect).1
        (display m).2).pixel_bytes =
      m.pixel_bytes + 2 * m.dirty_rect.w * m.dirty_rect.h := by
  rw [dirty_present_run (fun _ => true) m next hfb hin hp hq hidle hde hdv hff
    hh hyh]
  show m.pixel_bytes + (dirty_chain_count (fun _ => true) m.dirty_rect m.txn
      (m.dirty_rect.y / CHUNK_HEIGHT)
      ((m.dirty_rect.y + m.dirty_rect.h - 1) / CHUNK_HEIGHT -
        m.dirty_rect.y / CHUNK_HEIGHT)).1 =
    m.pixel_bytes + 2 * m.dirty_rect.w * m.dirty_rect.h
  rw [dirty_chain_count_ok_pixels,
    chain_rows_total m.dirty_rect.y m.dirty_rect.h hh hyh]

/-- Witness for C6: the end-to-end scenario fill_rect(10,10,20,20) + present,
which transmits 2 * 20 * 20 = 800 pixel bytes. -/

theorem C6_dirty_present_pixel_bytes_witness :
    (runSteps (fun _ => true)
        (calculate_dirty_chunks (beginState ⟨10, 10, 20, 20, true⟩).dirty_rect).1
        (display (beginState ⟨10, 10, 20, 20, true⟩)).2).pixel_bytes =
      (beginState ⟨10, 10, 20, 20, true⟩).pixel_bytes +
        2 * (beginState ⟨10, 10, 20, 20, true⟩).dirty_rect.w *
          (beginState ⟨10, 10, 20, 20, true⟩).dirty_rect.h :=
  C6_dirty_present_pixel_bytes (beginState ⟨10, 10, 20, 20, true⟩) 1 rfl rfl rfl
    rfl rfl rfl rfl rfl (by decide) (by decide)

/-- C7 (amended): a full-frame present that completes without transmit error
transmits 2 * W * H pixel bytes plus one CASET+RASET+RAMWR address window
(11 bytes) PER CHUNK: MAX_CHUNKS * 11 = 55 control bytes for the present,
not 11. -/

theorem C7_full_present_bytes (m : Machine) (next : Fin 3)
    (hfb : m.fb_enabled = true) (hin : m.inited = true)
    (hp : m.display_in_progress = false) (hq : m.queue = [])
    (hidle : find_idle_buffer m.buffer_states = some next)
    (hnd : (m.dirty_rect_enabled && m.dirty_rect.valid &&
      !m.force_full_redraw) = false) :
    (runSteps (fun _ => true) MAX_CHUNKS (display m).2).pixel_bytes =
        m.pixel_bytes + 2 * (ST7735_WIDTH * ST7735_HEIGHT) ∧
    (runSteps (fun _ => true) MAX_CHUNKS (display m).2).ctrl_bytes =
        m.ctrl_bytes + MAX_CHUNKS * set_addr_window_bytes := by
  rw [full_present_run (fun _ => true) m next hfb hin hp hq hidle hnd]
  constructor
  · show m.pixel_bytes + (full_chain_count (fun _ => true) m.txn 0 4).1 =
      m.pixel_bytes + 2 * (ST7735_WIDTH * ST7735_HEIGHT)
    rw [show (4 : Nat) = MAX_CHUNKS - 1 from rfl,
      full_chain_count_ok_pixels_total]
  · show m.ctrl_bytes + (full_chain_count (fun _ => true) m.txn 0 4).2.1 =
      m.ctrl_bytes + MAX_CHUNKS * set_addr_window_bytes
    rw [show (4 : Nat) = MAX_CHUNKS - 1 from rfl,
      full_chain_count_ctrl_total]

/-- Witness for C7 (amended). -/

theorem C7_full_present_bytes_witness :
    (runSteps (fun _ => true) MAX_CHUNKS (display readyFullState).2).pixel_bytes =
        readyFullState.pixel_bytes + 2 * (ST7735_WIDTH * ST7735_HEIGHT) ∧
    (runSteps (fun _ => true) MAX_CHUNKS (display readyFullState).2).ctrl_bytes =
        readyFullState.ctrl_bytes + MAX_CHUNKS * set_addr_window_bytes :=
  C7_full_present_bytes readyFullState 1 rfl rfl rfl rfl rfl rfl

/-- Counterexample to C7 as stated: a full-frame present emits the
CASET/RASET/RAMWR overhead once per chunk, 55 control bytes in total, not the
claimed 11 for the whole present. -/

theorem C7_counterexample :
    (runSteps (fun _ => true) MAX_CHUNKS (display readyFullState).2).ctrl_bytes
      = 55 ∧ (55 : Nat) ≠ 11 := by
  constructor
  · rfl
  · decide

/-- C2 (amended): a present issued with the dirty rect invalid (as after a
completed present cleared it, with no intervening rasterizer writes) takes
the full-frame path and transmits 2 * W * H pixel bytes, whether or not
dirty tracking is enabled. -/

theorem C2_second_present_full_frame (m : Machine) (next : Fin 3)
    (hfb : m.fb_enabled = true) (hin : m.inited = true)
    (hp : m.display_in_progress = false) (hq : m.queue = [])
    (hidle : find_idle_buffer m.buffer_states = some next)
    (hdv : m.dirty_rect.valid = false) :
    (runSteps (fun _ => true) MAX_CHUNKS (display m).2).pixel_bytes =
      m.pixel_bytes + 2 * (ST7735_WIDTH * ST7735_HEIGHT) := by
  have hnd : (m.dirty_rect_enabled && m.dirty_rect.valid &&
      !m.force_full_redraw) = false := by
    rw [hdv]
    simp
  rw [full_present_run (fun _ => true) m next hfb hin hp hq hidle hnd]
  show m.pixel_bytes + (full_chain_count (fun _ => true) m.txn 0 4).1 =
    m.pixel_bytes + 2 * (ST7735_WIDTH * ST7735_HEIGHT)
  rw [show (4 : Nat) = MAX_CHUNKS - 1 from rfl, full_chain_count_ok_pixels_total]

/-- Witness for C2 (amended). -/

theorem C2_second_present_full_frame_witness :
    (runSteps (fun _ => true) MAX_CHUNKS (display readyFullState).2).pixel_bytes =
      readyFullState.pixel_bytes + 2 * (ST7735_WIDTH * ST7735_HEIGHT) :=
  C2_second_present_full_frame readyFullState 1 rfl rfl rfl rfl rfl rfl

/-- Counterexample to C2 as stated: with dirty tracking ENABLED and the dirty
rect cleared by the previous present, the next present transmits 40960 pixel
bytes, not zero. -/

theorem C2_counterexample :
    readyFullState.dirty_rect_enabled = true ∧
    (runSteps (fun _ => true) MAX_CHUNKS (display readyFullState).2).pixel_bytes
      = 40960 ∧ (40960 : Nat) ≠ 0 := by
  refine ⟨rfl, ?_, by decide⟩
  rfl

/-- C4 (amended): when present is called with force_full_redraw set and a
non-empty dirty rect, a full-frame transfer runs and at its completion
clearDirty resets BOTH dirty_rect.valid AND force_full_redraw to false
(force_full_redraw does not remain true). -/

theorem C4_force_full_cleared (m : Machine) (next : Fin 3)
    (hfb : m.fb_enabled = true) (hin : m.inited = true)
    (hp : m.display_in_progress = false) (hq : m.queue = [])
    (hidle : find_idle_buffer m.buffer_states = some next)
    (hff : m.force_full_redraw = true) (hdv : m.dirty_rect.valid = true) :
    (runSteps (fun _ => true) MAX_CHUNKS (display m).2).force_full_redraw =
        false ∧
    (runSteps (fun _ => true) MAX_CHUNKS (display m).2).dirty_rect.valid =
        false := by
  have hnd : (m.dirty_rect_enabled && m.dirty_rect.valid &&
      !m.force_full_redraw) = false := by
    rw [hff]
    simp
  rw [full_present_run (fun _ => true) m next hfb hin hp hq hidle hnd]
  exact ⟨rfl, rfl⟩

/-- Witness for C4 (amended). -/

theorem C4_force_full_cleared_witness :
    (runSteps (fun _ => true) MAX_CHUNKS (display forceFullState).2).force_full_redraw
        = false ∧
    (runSteps (fun _ => true) MAX_CHUNKS (display forceFullState).2).dirty_rect.valid
        = false :=
  C4_force_full_cleared forceFullState 1 rfl rfl rfl rfl rfl rfl rfl

/-- Counterexample to C4 as stated: after the forced full-frame transfer
completes, force_full_redraw is false, not true. -/

theorem C4_counterexample :
    (runSteps (fun _ => true) MAX_CHUNKS (display forceFullState).2).force_full_redraw
      = false := by
  rfl

/-- C3 (amended): for every dirty-mode present and EVERY outcome of the
serial transactions (errors included), the chunk chain runs to completion:
a transmit error only skips the rest of the failed chunk, it is not
propagated, so the source buffer is released to IDLE, the present-done
signal fires, display_in_progress clears, and the dirty rect IS cleared by
the completion path. -/

theorem C3_transfer_error_outcome (ok : Nat → Bool) (m : Machine)
    (next : Fin 3)
    (hfb : m.fb_enabled = true) (hin : m.inited = true)
    (hp : m.display_in_progress = false) (hq : m.queue = [])
    (hidle : find_idle_buffer m.buffer_states = some next)
    (hde : m.dirty_rect_enabled = true) (hdv : m.dirty_rect.valid = true)
    (hff : m.force_full_redraw = false)
    (hh : 1 ≤ m.dirty_rect.h)
    (hyh : m.dirty_rect.y + m.dirty_rect.h ≤ ST7735_HEIGHT) :
    (runSteps ok (calculate_dirty_chunks m.dirty_rect).1
        (display m).2).buffer_states m.render_buffer_idx = .idle ∧
    (runSteps ok (calculate_dirty_chunks m.dirty_rect).1
        (display m).2).done_semaphore = true ∧
    (runSteps ok (calculate_dirty_chunks m.dirty_rect).1
        (display m).2).display_in_progress = false ∧
    (runSteps ok (calculate_dirty_chunks m.dirty_rect).1
        (display m).2).dirty_rect = clearedDirtyRect := by
  rw [dirty_present_run ok m next hfb hin hp hq hidle hde hdv hff hh hyh]
  refine ⟨?_, rfl, rfl, rfl⟩
  show Function.update (Function.update (Function.update m.buffer_states
      m.render_buffer_idx .transferring) next .rendering)
    m.render_buffer_idx .idle m.render_buffer_idx = .idle
  rw [Function.update_same]

/-- Witness for C3 (amended), with the all-failing transaction oracle. -/

theorem C3_transfer_error_outcome_witness :
    (runSteps (fun _ => false)
        (calculate_dirty_chunks dirtyTwoChunkState.dirty_rect).1
        (display dirtyTwoChunkState).2).buffer_states
      dirtyTwoChunkState.render_buffer_idx = .idle ∧
    (runSteps (fun _ => false)
        (calculate_dirty_chunks dirtyTwoChunkState.dirty_rect).1
        (display dirtyTwoChunkState).2).done_semaphore = true ∧
    (runSteps (fun _ => false)
        (calculate_dirty_chunks dirtyTwoChunkState.dirty_rect).1
        (display dirtyTwoChunkState).2).display_in_progress = false ∧
    (runSteps (fun _ => false)
        (calculate_dirty_chunks dirtyTwoChunkState.dirty_rect).1
        (display dirtyTwoChunkState).2).dirty_rect = clearedDirtyRect :=
  C3_transfer_error_outcome (fun _ => false) dirtyTwoChunkState 1 rfl rfl rfl
    rfl rfl rfl rfl rfl (by decide) (by decide)

/-- Counterexample to C3 as stated: with the oracle failing exactly the first
pixel transaction, the job does NOT terminate at the error (chunk 1 still
transmits its 8192 pixel bytes after chunk 0 row 0 failed) and the dirty
rect IS cleared at completion. -/

theorem C3_counterexample :
    (runSteps (fun t => decide (0 < t)) 2
        (display dirtyTwoChunkState).2).dirty_rect.valid = false ∧
    (runSteps (fun t => decide (0 < t)) 2
        (display dirtyTwoChunkState).2).pixel_bytes = 8192 := by
  constructor
  · rfl
  · rfl

lemma bswap16_involutive (p : Nat) (hp : p < 65536) :
    bswap16 (bswap16 p) = p := by
  unfold bswap16
  omega

lemma swap_range_swap_range (buf : Nat → Nat) (lo hi : Nat)
    (hb : ∀ i, buf i < 65536) :
    swap_range (swap_range buf lo hi) lo hi = buf := by
  funext i
  unfold swap_range
  by_cases h : lo ≤ i ∧ i < hi
  · simp only [h, if_true, ite_true]
    exact bswap16_involutive (buf i) (hb i)
  · simp only [h, if_false, ite_false]

lemma send_chunk_buf_all_ok_restores (total : Nat) :
    ∀ (fuel t offset : Nat) (buf : Nat → Nat), (∀ i, buf i < 65536) →
      (send_chunk_buf (fun _ => true) total fuel t offset buf).1 = buf := by
  intro fuel
  induction fuel with
  | zero =>
    intro t offset buf hb
    rfl
  | succ n ih =>
    intro t offset buf hb
    simp only [send_chunk_buf]
    by_cases h : offset < total
    · simp only [h, if_true, ite_true, eq_self_iff_true]
      rw [swap_range_swap_range _ _ _ hb]
      exact ih (t + 1) _ buf hb
    · simp only [h, if_false, ite_false]

lemma send_dirty_rows_buf_restores (ok : Nat → Bool) (w : Nat) :
    ∀ (rows t base : Nat) (buf : Nat → Nat), (∀ i, buf i < 65536) →
      (send_dirty_rows_buf ok w t base rows buf).1 = buf := by
  intro rows
  induction rows with
  | zero =>
    intro t base buf hb
    rfl
  | succ n ih =>
    intro t base buf hb
    simp only [send_dirty_rows_buf]
    rw [swap_range_swap_range _ _ _ hb]
    by_cases h : ok t = true
    · simp only [h, if_true, ite_true]
      exact ih (t + 1) _ buf hb
    · simp [h]

lemma copy_chunk_bound {src bounce : Nat → Nat} (k : Nat)
    (hs : ∀ i, src i < 65536) (hb : ∀ i, bounce i < 65536) :
    ∀ i, copy_chunk src k bounce i < 65536 := by
  intro i
  unfold copy_chunk
  split
  · exact hs _
  · exact hb i

/-- C8 (amended): the transfer engine never mutates the off-chip source
framebuffer in either mode (it is copied then swapped inside the bounce
buffer only); the bounce buffer equals the staged (pre-swap) copy after
every error-free full-frame send and after EVERY dirty-mode send, errors
included.  (As stated the claim is false: the full-frame path's error
return skips the swap-back, see the counterexample.) -/

theorem C8_source_untouched_bounce_restored (ok : Nat → Bool) (t : Nat)
    (mem : PixelMem) (k : Nat) (src : Fin 3) (r : DirtyRect)
    (hF : ∀ j i, mem.fb j i < 65536)
    (hA : ∀ i, mem.sram_a i < 65536) (hB : ∀ i, mem.sram_b i < 65536) :
    (copy_chunk_and_send_mem ok t mem k src).1.fb = mem.fb ∧
    (copy_dirty_chunk_and_send_mem ok t mem k src r).1.fb = mem.fb ∧
    (copy_chunk_and_send_mem (fun _ => true) t mem k src).1 =
      (if k % 2 = 0 then
        { mem with sram_a := copy_chunk (mem.fb src) k mem.sram_a }
       else
        { mem with sram_b := copy_chunk (mem.fb src) k mem.sram_b }) ∧
    (copy_dirty_chunk_and_send_mem ok t mem k src r).1 =
      (if dirty_rows_in_chunk r k = 0 then mem
       else if k % 2 = 0 then
        { mem with sram_a := copy_chunk (mem.fb src) k mem.sram_a }
       else
        { mem with sram_b := copy_chunk (mem.fb src) k mem.sram_b }) := by
  refine ⟨?_, ?_, ?_, ?_⟩
  · unfold copy_chunk_and_send_mem
    split <;> rfl
  · unfold copy_dirty_chunk_and_send_mem
    split
    · rfl
    · split <;> rfl
  · unfold copy_chunk_and_send_mem
    by_cases hk : k % 2 = 0
    · simp only [hk, if_true, ite_true, eq_self_iff_true]
      rw [send_chunk_buf_all_ok_restores _ _ _ _ _
        (copy_chunk_bound k (hF src) hA)]
    · simp only [hk, if_false, ite_false]
      rw [send_chunk_buf_all_ok_restores _ _ _ _ _
        (copy_chunk_bound k (hF src) hB)]
  · unfold copy_dirty_chunk_and_send_mem
    by_cases hz : dirty_rows_in_chunk r k = 0
    · simp only [hz, if_true, ite_true, eq_self_iff_true]
    · simp only [hz, if_false, ite_false]
      by_cases hk : k % 2 = 0
      · simp only [hk, if_true, ite_true, eq_self_iff_true]
        rw [send_dirty_rows_buf_restores _ _ _ _ _ _
          (copy_chunk_bound k (hF src) hA)]
      · simp only [hk, if_false, ite_false]
        rw [send_dirty_rows_buf_restores _ _ _ _ _ _
          (copy_chunk_bound k (hF src) hB)]

/-- Witness for C8 (amended), with an all-failing oracle in dirty mode. -/

theorem C8_source_untouched_bounce_restored_witness :
    (copy_chunk_and_send_mem (fun _ => false) 0 zeroMem 0 0).1.fb =
      zeroMem.fb ∧
    (copy_dirty_chunk_and_send_mem (fun _ => false) 0 zeroMem 0 0
      ⟨0, 0, 128, 64, true⟩).1.fb = zeroMem.fb ∧
    (copy_chunk_and_send_mem (fun _ => true) 0 zeroMem 0 0).1 =
      (if 0 % 2 = 0 then
        { zeroMem with sram_a := copy_chunk (zeroMem.fb 0) 0 zeroMem.sram_a }
       else
        { zeroMem with sram_b := copy_chunk (zeroMem.fb 0) 0 zeroMem.sram_b }) ∧
    (copy_dirty_chunk_and_send_mem (fun _ => false) 0 zeroMem 0 0
      ⟨0, 0, 128, 64, true⟩).1 =
      (if dirty_rows_in_chunk ⟨0, 0, 128, 64, true⟩ 0 = 0 then zeroMem
       else if 0 % 2 = 0 then
        { zeroMem with sram_a := copy_chunk (zeroMem.fb 0) 0 zeroMem.sram_a }
       else
        { zeroMem with sram_b := copy_chunk (zeroMem.fb 0) 0 zeroMem.sram_b }) :=
  C8_source_untouched_bounce_restored (fun _ => false) 0 zeroMem 0 0
    ⟨0, 0, 128, 64, true⟩ (fun _ _ => (by norm_num : (0 : Nat) < 65536))
    (fun _ => (by norm_num : (0 : Nat) < 65536))
    (fun _ => (by norm_num : (0 : Nat) < 65536))

/-- Counterexample to C8 as stated: in the full-frame path a transmit error
returns with the current block still byte-swapped: sending a chunk of
0x0001 pixels with a failing first transaction leaves 0x0100 (256) at
index 0 of the bounce buffer instead of the original 1. -/

theorem C8_counterexample :
    (send_chunk_buf (fun _ => false) 4096 4096 0 0 (fun _ => 1)).1 0 = 256 ∧
    (256 : Nat) ≠ 1 := by
  constructor
  · rfl
  · decide

end TFT7735V


